import Mathlib

/-!
A verification development for the safety envelope layer
(`src/ghost-void/src/safety/SafetyLayer.cpp` together with its header
`include/safety/SafetyLayer.hpp`, C++ namespace `safety`).

The only operation is `SafetyLayer::clip(proposed, context, bounds)`.
The C++ code performs no floating-point arithmetic on the action values:
it only compares them (`>`, `<`), copies them, and writes the literals
`0.0` and the bound fields.  IEEE-754 doubles under comparison-only use
embed exactly as the four-way value type below: `NaN` (every comparison
with it is false), the two infinities, and finite values carried as
rationals (every finite double is a rational, `-0.0` and `+0.0` compare
equal and are identified).  `FP.lt`/`FP.le`/`FP.gt` below are exactly the
IEEE comparison predicates on that type.
-/

namespace Safety

/-- Embedded value of a C++ `double` as used by the safety layer. -/
inductive FP where
  | NaN : FP
  | PosInf : FP
  | NegInf : FP
  | Finite : ℚ → FP
deriving DecidableEq

instance : Inhabited FP := ⟨FP.Finite 0⟩

/-- `std::isfinite`. -/
def FP.isFinite : FP → Bool
  | FP.Finite _ => true
  | _ => false

/-- IEEE-754 `<` on doubles: false whenever either side is NaN. -/
def FP.lt : FP → FP → Bool
  | FP.NaN, _ => false
  | _, FP.NaN => false
  | FP.NegInf, FP.NegInf => false
  | FP.NegInf, _ => true
  | _, FP.NegInf => false
  | FP.PosInf, _ => false
  | _, FP.PosInf => true
  | FP.Finite a, FP.Finite b => decide (a < b)

/-- IEEE-754 `>` on doubles: `a > b` iff `b < a`. -/
def FP.gt (a b : FP) : Bool := FP.lt b a

/-- IEEE-754 `<=` on doubles: false whenever either side is NaN. -/
def FP.le : FP → FP → Bool
  | FP.NaN, _ => false
  | _, FP.NaN => false
  | FP.NegInf, _ => true
  | _, FP.NegInf => false
  | _, FP.PosInf => true
  | FP.PosInf, _ => false
  | FP.Finite a, FP.Finite b => decide (a ≤ b)

/-- `safety::ViolationType` (SafetyLayer.hpp). -/
inductive ViolationType where
  | None : ViolationType
  | SoftLimit : ViolationType
  | HardLimit : ViolationType
  | InvariantBreach : ViolationType
deriving DecidableEq

/-- `safety::SafetyBounds` (SafetyLayer.hpp): four scalars per dimension. -/
structure SafetyBounds where
  lower_hard : FP
  upper_hard : FP
  lower_soft : FP
  upper_soft : FP
deriving DecidableEq

/-- The default-constructed `SafetyBounds` of the C++ header:
unbounded in every direction. -/
def SafetyBounds.unbounded : SafetyBounds :=
  ⟨FP.NegInf, FP.PosInf, FP.NegInf, FP.PosInf⟩

instance : Inhabited SafetyBounds := ⟨SafetyBounds.unbounded⟩

/-- `safety::Action`: an ordered sequence of values, one per dimension. -/
structure Action where
  values : List FP
deriving DecidableEq

/-- `safety::State`: the context state; accepted by `clip` but never read. -/
structure State where
  values : List FP
deriving DecidableEq

/-- `safety::ClipStats`: per-dimension telemetry record. -/
structure ClipStats where
  violation : ViolationType
  original_value : FP
  clipped_value : FP
  was_modified : Bool
  message : String
deriving DecidableEq

instance : Inhabited ClipStats :=
  ⟨⟨ViolationType.None, FP.NaN, FP.NaN, false, ""⟩⟩

/-- `safety::ClipResult`. -/
structure ClipResult where
  clamped_action : Action
  stats : List ClipStats
  is_safe : Bool
deriving DecidableEq

/-- Body of the per-dimension loop of `SafetyLayer::clip`
(SafetyLayer.cpp lines 32-74): fail-safe check for non-finite values,
then hard limits (which clamp), then soft limits (which only warn). -/
def clipDim (val : FP) (bound : SafetyBounds) : ClipStats :=
  if !(FP.isFinite val) then
    { violation := ViolationType.InvariantBreach
      original_value := val
      clipped_value := FP.Finite 0
      was_modified := true
      message := "Non-finite value" }
  else if FP.gt val bound.upper_hard then
    { violation := ViolationType.HardLimit
      original_value := val
      clipped_value := bound.upper_hard
      was_modified := true
      message := "Exceeded Upper Hard Limit" }
  else if FP.lt val bound.lower_hard then
    { violation := ViolationType.HardLimit
      original_value := val
      clipped_value := bound.lower_hard
      was_modified := true
      message := "Exceeded Lower Hard Limit" }
  else if FP.gt val bound.upper_soft then
    { violation := ViolationType.SoftLimit
      original_value := val
      clipped_value := val
      was_modified := false
      message := "Exceeded Upper Soft Limit" }
  else if FP.lt val bound.lower_soft then
    { violation := ViolationType.SoftLimit
      original_value := val
      clipped_value := val
      was_modified := false
      message := "Exceeded Lower Soft Limit" }
  else
    { violation := ViolationType.None
      original_value := val
      clipped_value := val
      was_modified := false
      message := "" }

/-- `SafetyLayer::clip` (SafetyLayer.cpp lines 9-82).

On a dimension mismatch the C++ returns zeros of the bounds' length with a
single `InvariantBreach` record (its `original_value`/`clipped_value`
fields are left uninitialized by the C++ in that branch; they are fixed to
`0` here and no theorem depends on them).  Otherwise each dimension is
processed by the loop body `clipDim`; the clamped action collects the
per-dimension `clipped_value`s; the C++ running flag `is_safe` starts
`true` and is set `false` exactly inside the non-finite branch, i.e. the
final flag is `true` iff every proposed value is finite. -/
def SafetyLayer.clip (proposed : Action) (context : State)
    (bounds : List SafetyBounds) : ClipResult :=
  if proposed.values.length ≠ bounds.length then
    { clamped_action := { values := List.replicate bounds.length (FP.Finite 0) }
      stats := [{ violation := ViolationType.InvariantBreach
                  original_value := FP.Finite 0
                  clipped_value := FP.Finite 0
                  was_modified := true
                  message := "Dimension mismatch between action and bounds" }]
      is_safe := false }
  else
    let stats := List.zipWith clipDim proposed.values bounds
    { clamped_action := { values := stats.map ClipStats.clipped_value }
      stats := stats
      is_safe := proposed.values.all FP.isFinite }

/-! ### Bridging lemmas: per-index view of `clip` in the matching-length branch -/

theorem clip_of_length_eq (p : Action) (c : State) (bs : List SafetyBounds)
    (h : p.values.length = bs.length) :
    SafetyLayer.clip p c bs =
      { clamped_action :=
          { values := (List.zipWith clipDim p.values bs).map ClipStats.clipped_value }
        stats := List.zipWith clipDim p.values bs
        is_safe := p.values.all FP.isFinite } := by
  simp [SafetyLayer.clip, h]

theorem clip_stats_length (p : Action) (c : State) (bs : List SafetyBounds)
    (h : p.values.length = bs.length) :
    (SafetyLayer.clip p c bs).stats.length = bs.length := by
  rw [clip_of_length_eq p c bs h]
  simp [List.length_zipWith, h]

theorem clip_clamped_length (p : Action) (c : State) (bs : List SafetyBounds)
    (h : p.values.length = bs.length) :
    (SafetyLayer.clip p c bs).clamped_action.values.length = bs.length := by
  rw [clip_of_length_eq p c bs h]
  simp [List.length_zipWith, h]

theorem clip_stats_getD (p : Action) (c : State) (bs : List SafetyBounds)
    (h : p.values.length = bs.length) (i : Nat) (hi : i < bs.length) (d : ClipStats) :
    (SafetyLayer.clip p c bs).stats.getD i d
      = clipDim (p.values.getD i FP.NaN) (bs.getD i SafetyBounds.unbounded) := by
  rw [clip_of_length_eq p c bs h]
  have h1 : i < p.values.length := by omega
  have h2 : i < (List.zipWith clipDim p.values bs).length := by
    rw [List.length_zipWith]; omega
  rw [List.getD_eq_getElem _ _ h2, List.getElem_zipWith,
      List.getD_eq_getElem _ _ h1, List.getD_eq_getElem _ _ hi]

theorem clip_clamped_getD (p : Action) (c : State) (bs : List SafetyBounds)
    (h : p.values.length = bs.length) (i : Nat) (hi : i < bs.length) :
    (SafetyLayer.clip p c bs).clamped_action.values.getD i FP.NaN
      = (clipDim (p.values.getD i FP.NaN) (bs.getD i SafetyBounds.unbounded)).clipped_value := by
  rw [clip_of_length_eq p c bs h]
  have h1 : i < p.values.length := by omega
  have h2 : i < (List.zipWith clipDim p.values bs).length := by
    rw [List.length_zipWith]; omega
  have h3 : i < ((List.zipWith clipDim p.values bs).map ClipStats.clipped_value).length := by
    rw [List.length_map]; omega
  simp only []
  rw [List.getD_eq_getElem _ _ h3, List.getElem_map, List.getElem_zipWith,
      List.getD_eq_getElem _ _ h1, List.getD_eq_getElem _ _ hi]

/-! ### Facts about the IEEE comparisons -/

theorem FP.le_self_left {a b : FP} (h : FP.le a b = true) : FP.le a a = true := by
  cases a <;> cases b <;> simp_all [FP.le]

theorem FP.le_self_right {a b : FP} (h : FP.le a b = true) : FP.le b b = true := by
  cases a <;> cases b <;> simp_all [FP.le]

theorem FP.le_of_not_lt_finite {a : FP} {q : ℚ} (hna : FP.le a a = true)
    (h : FP.lt (FP.Finite q) a = false) : FP.le a (FP.Finite q) = true := by
  cases a <;> simp_all [FP.le, FP.lt]

theorem FP.le_of_not_gt_finite {a : FP} {q : ℚ} (hna : FP.le a a = true)
    (h : FP.gt (FP.Finite q) a = false) : FP.le (FP.Finite q) a = true := by
  cases a <;> simp_all [FP.le, FP.lt, FP.gt]

/-! ### Branch lemmas for `clipDim`, one per branch of the C++ conditional -/

theorem clipDim_nonfinite (v : FP) (b : SafetyBounds) (h : FP.isFinite v = false) :
    clipDim v b =
      { violation := ViolationType.InvariantBreach
        original_value := v
        clipped_value := FP.Finite 0
        was_modified := true
        message := "Non-finite value" } := by
  simp [clipDim, h]

theorem clipDim_upper_hard (v : FP) (b : SafetyBounds)
    (hf : FP.isFinite v = true) (h : FP.gt v b.upper_hard = true) :
    clipDim v b =
      { violation := ViolationType.HardLimit
        original_value := v
        clipped_value := b.upper_hard
        was_modified := true
        message := "Exceeded Upper Hard Limit" } := by
  simp [clipDim, hf, h]

theorem clipDim_lower_hard (v : FP) (b : SafetyBounds)
    (hf : FP.isFinite v = true) (h1 : FP.gt v b.upper_hard = false)
    (h2 : FP.lt v b.lower_hard = true) :
    clipDim v b =
      { violation := ViolationType.HardLimit
        original_value := v
        clipped_value := b.lower_hard
        was_modified := true
        message := "Exceeded Lower Hard Limit" } := by
  simp [clipDim, hf, h1, h2]

theorem clipDim_soft_or_none (v : FP) (b : SafetyBounds)
    (hf : FP.isFinite v = true) (h1 : FP.gt v b.upper_hard = false)
    (h2 : FP.lt v b.lower_hard = false) :
    (clipDim v b).clipped_value = v ∧ (clipDim v b).was_modified = false ∧
    (clipDim v b).violation ≠ ViolationType.HardLimit ∧
    (clipDim v b).violation ≠ ViolationType.InvariantBreach := by
  simp [clipDim, hf, h1, h2]; split_ifs <;> simp

theorem clipDim_none (v : FP) (b : SafetyBounds)
    (hf : FP.isFinite v = true) (h1 : FP.gt v b.upper_hard = false)
    (h2 : FP.lt v b.lower_hard = false) (h3 : FP.gt v b.upper_soft = false)
    (h4 : FP.lt v b.lower_soft = false) :
    clipDim v b =
      { violation := ViolationType.None
        original_value := v
        clipped_value := v
        was_modified := false
        message := "" } := by
  simp [clipDim, hf, h1, h2, h3, h4]

theorem clipDim_original (v : FP) (b : SafetyBounds) :
    (clipDim v b).original_value = v := by
  simp only [clipDim]; split_ifs <;> rfl

theorem clipDim_breach_iff (v : FP) (b : SafetyBounds) :
    (clipDim v b).violation = ViolationType.InvariantBreach ↔ FP.isFinite v = false := by
  simp only [clipDim]; split_ifs with h <;> simp_all

theorem clipDim_was_modified_iff (v : FP) (b : SafetyBounds) :
    (clipDim v b).was_modified = true ↔
      ((clipDim v b).violation = ViolationType.HardLimit ∨
       (clipDim v b).violation = ViolationType.InvariantBreach) := by
  simp only [clipDim]; split_ifs <;> simp

theorem clipDim_mem_interval (v : FP) (b : SafetyBounds)
    (hfin : FP.isFinite v = true)
    (hord : FP.le b.lower_hard b.upper_hard = true) :
    FP.le b.lower_hard (clipDim v b).clipped_value = true ∧
    FP.le (clipDim v b).clipped_value b.upper_hard = true := by
  cases v with
  | NaN => simp [FP.isFinite] at hfin
  | PosInf => simp [FP.isFinite] at hfin
  | NegInf => simp [FP.isFinite] at hfin
  | Finite q =>
    by_cases h1 : FP.gt (FP.Finite q) b.upper_hard = true
    · rw [clipDim_upper_hard _ _ hfin h1]
      exact ⟨hord, FP.le_self_right hord⟩
    · have h1' : FP.gt (FP.Finite q) b.upper_hard = false := by
        simpa using h1
      by_cases h2 : FP.lt (FP.Finite q) b.lower_hard = true
      · rw [clipDim_lower_hard _ _ hfin h1' h2]
        exact ⟨FP.le_self_left hord, hord⟩
      · have h2' : FP.lt (FP.Finite q) b.lower_hard = false := by
          simpa using h2
        obtain ⟨hc, -, -, -⟩ := clipDim_soft_or_none _ b hfin h1' h2'
        rw [hc]
        exact ⟨FP.le_of_not_lt_finite (FP.le_self_left hord) h2',
               FP.le_of_not_gt_finite (FP.le_self_right hord) h1'⟩

theorem clipDim_soft_none_unchanged (v : FP) (b : SafetyBounds)
    (hv : (clipDim v b).violation = ViolationType.SoftLimit ∨
          (clipDim v b).violation = ViolationType.None) :
    (clipDim v b).clipped_value = v ∧ (clipDim v b).was_modified = false := by
  simp only [clipDim] at hv ⊢
  split_ifs at hv ⊢ <;> simp_all

theorem zip_breach_iff (vs : List FP) :
    ∀ bs : List SafetyBounds, vs.length = bs.length →
      ((∃ s ∈ List.zipWith clipDim vs bs,
          s.violation = ViolationType.InvariantBreach) ↔
        ∃ v ∈ vs, FP.isFinite v = false) := by
  induction vs with
  | nil => intro bs h; simp
  | cons v vs ih =>
    intro bs h
    cases bs with
    | nil => simp at h
    | cons b bs =>
      have ihh := ih bs (by simpa using h)
      simp only [List.zipWith_cons_cons, List.mem_cons]
      constructor
      · rintro ⟨s, hs | hs, hb⟩
        · exact ⟨v, Or.inl rfl, (clipDim_breach_iff v b).mp (hs ▸ hb)⟩
        · obtain ⟨w, hw, hwf⟩ := ihh.mp ⟨s, hs, hb⟩
          exact ⟨w, Or.inr hw, hwf⟩
      · rintro ⟨w, hw | hw, hwf⟩
        · exact ⟨clipDim v b, Or.inl rfl, (clipDim_breach_iff v b).mpr (hw ▸ hwf)⟩
        · obtain ⟨s, hs, hb⟩ := ihh.mpr ⟨w, hw, hwf⟩
          exact ⟨s, Or.inr hs, hb⟩

theorem FP.lt_irrefl (a : FP) : FP.lt a a = false := by
  cases a <;> simp [FP.lt]

theorem FP.not_lt_of_le {a b : FP} (h : FP.le a b = true) : FP.lt b a = false := by
  cases a <;> cases b <;> simp_all [FP.le, FP.lt]

theorem FP.lt_posInf_left (v : FP) : FP.lt FP.PosInf v = false := by
  cases v <;> rfl

theorem FP.lt_negInf_right (v : FP) : FP.lt v FP.NegInf = false := by
  cases v <;> rfl

/-! ### Claim theorems -/

/-- C1 as frozen is refuted by inverted hard bounds: with
`lower_hard = 5 > upper_hard = 3` the finite proposed value `4` is
clamped to `3`, which does not lie in the (empty) interval `[5, 3]`. -/
theorem C1_counterexample :
    FP.isFinite ((Action.mk [FP.Finite 4]).values.getD 0 FP.NaN) = true ∧
    ¬ (FP.le (([⟨FP.Finite 5, FP.Finite 3, FP.Finite 0, FP.Finite 0⟩] :
            List SafetyBounds).getD 0 SafetyBounds.unbounded).lower_hard
          ((SafetyLayer.clip ⟨[FP.Finite 4]⟩ ⟨[]⟩
              [⟨FP.Finite 5, FP.Finite 3, FP.Finite 0, FP.Finite 0⟩]
            ).clamped_action.values.getD 0 FP.NaN) = true ∧
       FP.le ((SafetyLayer.clip ⟨[FP.Finite 4]⟩ ⟨[]⟩
              [⟨FP.Finite 5, FP.Finite 3, FP.Finite 0, FP.Finite 0⟩]
            ).clamped_action.values.getD 0 FP.NaN)
          (([⟨FP.Finite 5, FP.Finite 3, FP.Finite 0, FP.Finite 0⟩] :
            List SafetyBounds).getD 0 SafetyBounds.unbounded).upper_hard = true) := by
  decide

/-- C1 (amended): boundedness holds on every dimension whose hard bounds
are ordered — whenever `lower_hard ≤ upper_hard` (IEEE `≤`, so neither is
NaN) and the proposed value is finite, the clamped value lies in
`[lower_hard, upper_hard]`. -/
theorem C1_boundedness (p : Action) (c : State) (bs : List SafetyBounds)
    (h : p.values.length = bs.length) (i : Nat) (hi : i < bs.length)
    (hord : FP.le (bs.getD i SafetyBounds.unbounded).lower_hard
              (bs.getD i SafetyBounds.unbounded).upper_hard = true)
    (hfin : FP.isFinite (p.values.getD i FP.NaN) = true) :
    FP.le (bs.getD i SafetyBounds.unbounded).lower_hard
        ((SafetyLayer.clip p c bs).clamped_action.values.getD i FP.NaN) = true ∧
    FP.le ((SafetyLayer.clip p c bs).clamped_action.values.getD i FP.NaN)
        (bs.getD i SafetyBounds.unbounded).upper_hard = true := by
  rw [clip_clamped_getD p c bs h i hi]
  exact clipDim_mem_interval _ _ hfin hord

/-- Witness for C1 (amended): proposed `7` against ordered hard bounds
`[-1, 2]` lands (clamped) inside `[-1, 2]`. -/
theorem C1_boundedness_witness :
    FP.le (([⟨FP.Finite (-1), FP.Finite 2, FP.Finite 0, FP.Finite 1⟩] :
          List SafetyBounds).getD 0 SafetyBounds.unbounded).lower_hard
        ((SafetyLayer.clip ⟨[FP.Finite 7]⟩ ⟨[]⟩
            [⟨FP.Finite (-1), FP.Finite 2, FP.Finite 0, FP.Finite 1⟩]
          ).clamped_action.values.getD 0 FP.NaN) = true ∧
    FP.le ((SafetyLayer.clip ⟨[FP.Finite 7]⟩ ⟨[]⟩
            [⟨FP.Finite (-1), FP.Finite 2, FP.Finite 0, FP.Finite 1⟩]
          ).clamped_action.values.getD 0 FP.NaN)
        (([⟨FP.Finite (-1), FP.Finite 2, FP.Finite 0, FP.Finite 1⟩] :
          List SafetyBounds).getD 0 SafetyBounds.unbounded).upper_hard = true :=
  C1_boundedness ⟨[FP.Finite 7]⟩ ⟨[]⟩
    [⟨FP.Finite (-1), FP.Finite 2, FP.Finite 0, FP.Finite 1⟩]
    (by decide) 0 (by decide) (by decide) (by decide)

/-- C2 as frozen is refuted on the message text: the single mismatch
record carries "Dimension mismatch between action and bounds" (capital
D), not "dimension mismatch between action and bounds". -/
theorem C2_counterexample :
    (SafetyLayer.clip ⟨[FP.Finite 1, FP.Finite 1, FP.Finite 1]⟩ ⟨[]⟩
        [SafetyBounds.unbounded, SafetyBounds.unbounded]).stats.length = 1 ∧
    ((SafetyLayer.clip ⟨[FP.Finite 1, FP.Finite 1, FP.Finite 1]⟩ ⟨[]⟩
        [SafetyBounds.unbounded, SafetyBounds.unbounded]).stats.getD 0
          default).message ≠ "dimension mismatch between action and bounds" := by
  decide

/-- C2 (amended): on a length mismatch, `clip` returns zeros of the
bounds' length, `is_safe = false`, and exactly one stats record with
violation `InvariantBreach` and message
"Dimension mismatch between action and bounds"; no per-dimension record
is produced. -/
theorem C2_dimension_mismatch (p : Action) (c : State) (bs : List SafetyBounds)
    (h : p.values.length ≠ bs.length) :
    (SafetyLayer.clip p c bs).clamped_action.values
        = List.replicate bs.length (FP.Finite 0) ∧
    (SafetyLayer.clip p c bs).is_safe = false ∧
    (SafetyLayer.clip p c bs).stats.length = 1 ∧
    ((SafetyLayer.clip p c bs).stats.getD 0 default).violation
        = ViolationType.InvariantBreach ∧
    ((SafetyLayer.clip p c bs).stats.getD 0 default).message
        = "Dimension mismatch between action and bounds" := by
  simp [SafetyLayer.clip, h]

/-- Witness for C2 (amended): three proposed values against two bounds. -/
theorem C2_dimension_mismatch_witness :
    (SafetyLayer.clip ⟨[FP.Finite 1, FP.Finite 1, FP.Finite 1]⟩ ⟨[]⟩
        [SafetyBounds.unbounded, SafetyBounds.unbounded]).clamped_action.values
        = List.replicate ([SafetyBounds.unbounded, SafetyBounds.unbounded] :
            List SafetyBounds).length (FP.Finite 0) ∧
    (SafetyLayer.clip ⟨[FP.Finite 1, FP.Finite 1, FP.Finite 1]⟩ ⟨[]⟩
        [SafetyBounds.unbounded, SafetyBounds.unbounded]).is_safe = false ∧
    (SafetyLayer.clip ⟨[FP.Finite 1, FP.Finite 1, FP.Finite 1]⟩ ⟨[]⟩
        [SafetyBounds.unbounded, SafetyBounds.unbounded]).stats.length = 1 ∧
    ((SafetyLayer.clip ⟨[FP.Finite 1, FP.Finite 1, FP.Finite 1]⟩ ⟨[]⟩
        [SafetyBounds.unbounded, SafetyBounds.unbounded]).stats.getD 0
          default).violation = ViolationType.InvariantBreach ∧
    ((SafetyLayer.clip ⟨[FP.Finite 1, FP.Finite 1, FP.Finite 1]⟩ ⟨[]⟩
        [SafetyBounds.unbounded, SafetyBounds.unbounded]).stats.getD 0
          default).message = "Dimension mismatch between action and bounds" :=
  C2_dimension_mismatch ⟨[FP.Finite 1, FP.Finite 1, FP.Finite 1]⟩ ⟨[]⟩
    [SafetyBounds.unbounded, SafetyBounds.unbounded] (by decide)

/-- C3: the returned `is_safe` flag is false if and only if at least one
`ClipStats` record in the result has violation `InvariantBreach`; in
particular `SoftLimit` and `HardLimit` violations alone leave `is_safe`
true. -/
theorem C3_is_safe_iff_breach (p : Action) (c : State) (bs : List SafetyBounds) :
    (SafetyLayer.clip p c bs).is_safe = false ↔
      ∃ s ∈ (SafetyLayer.clip p c bs).stats,
        s.violation = ViolationType.InvariantBreach := by
  by_cases h : p.values.length = bs.length
  · rw [clip_of_length_eq p c bs h]
    simp only []
    rw [zip_breach_iff p.values bs h]
    constructor
    · intro hall
      rcases List.all_eq_false.mp hall with ⟨v, hv, hvf⟩
      exact ⟨v, hv, by simpa using hvf⟩
    · rintro ⟨v, hv, hvf⟩
      exact List.all_eq_false.mpr ⟨v, hv, by simp [hvf]⟩
  · simp [SafetyLayer.clip, h]

/-- C4: with matching lengths, a dimension whose proposed value is not
finite yields a `ClipStats` with violation `InvariantBreach`, clipped
value exactly `0.0`, `was_modified` true, and the whole result's
`is_safe` is false. -/
theorem C4_fail_safe (p : Action) (c : State) (bs : List SafetyBounds)
    (h : p.values.length = bs.length) (i : Nat) (hi : i < bs.length)
    (hnf : FP.isFinite (p.values.getD i FP.NaN) = false) :
    ((SafetyLayer.clip p c bs).stats.getD i default).violation
        = ViolationType.InvariantBreach ∧
    ((SafetyLayer.clip p c bs).stats.getD i default).clipped_value = FP.Finite 0 ∧
    ((SafetyLayer.clip p c bs).stats.getD i default).was_modified = true ∧
    (SafetyLayer.clip p c bs).is_safe = false := by
  rw [clip_stats_getD p c bs h i hi default, clipDim_nonfinite _ _ hnf]
  refine ⟨rfl, rfl, rfl, ?_⟩
  rw [clip_of_length_eq p c bs h]
  simp only []
  have h1 : i < p.values.length := by omega
  rw [List.getD_eq_getElem _ _ h1] at hnf
  cases hall : p.values.all FP.isFinite with
  | false => rfl
  | true =>
    have := List.all_eq_true.mp hall _ (List.getElem_mem h1)
    rw [this] at hnf
    exact absurd hnf (by simp)

/-- C5: with matching lengths and a finite proposed value `v`, if
`v > upper_hard` the violation is `HardLimit` (never `SoftLimit`), the
clipped value is `upper_hard`, and `was_modified` is true; symmetrically,
if `v` is not above `upper_hard` and `v < lower_hard` the violation is
`HardLimit`, the clipped value is `lower_hard`, and `was_modified` is
true. -/
theorem C5_hard_limit_precedence (p : Action) (c : State)
    (bs : List SafetyBounds)
    (h : p.values.length = bs.length) (i : Nat) (hi : i < bs.length)
    (hfin : FP.isFinite (p.values.getD i FP.NaN) = true) :
    (FP.gt (p.values.getD i FP.NaN)
        (bs.getD i SafetyBounds.unbounded).upper_hard = true →
      ((SafetyLayer.clip p c bs).stats.getD i default).violation
          = ViolationType.HardLimit ∧
      ((SafetyLayer.clip p c bs).stats.getD i default).clipped_value
          = (bs.getD i SafetyBounds.unbounded).upper_hard ∧
      ((SafetyLayer.clip p c bs).stats.getD i default).was_modified = true) ∧
    (FP.gt (p.values.getD i FP.NaN)
        (bs.getD i SafetyBounds.unbounded).upper_hard = false →
      FP.lt (p.values.getD i FP.NaN)
        (bs.getD i SafetyBounds.unbounded).lower_hard = true →
      ((SafetyLayer.clip p c bs).stats.getD i default).violation
          = ViolationType.HardLimit ∧
      ((SafetyLayer.clip p c bs).stats.getD i default).clipped_value
          = (bs.getD i SafetyBounds.unbounded).lower_hard ∧
      ((SafetyLayer.clip p c bs).stats.getD i default).was_modified = true) := by
  rw [clip_stats_getD p c bs h i hi default]
  constructor
  · intro hgt
    rw [clipDim_upper_hard _ _ hfin hgt]
    exact ⟨rfl, rfl, rfl⟩
  · intro hgt hlt
    rw [clipDim_lower_hard _ _ hfin hgt hlt]
    exact ⟨rfl, rfl, rfl⟩

/-- C6: with matching lengths, a dimension whose `ClipStats` violation is
`SoftLimit` or `None` has its clipped value equal to the original
proposed value and `was_modified` false: soft limits warn but never
clamp. -/
theorem C6_soft_non_interference (p : Action) (c : State)
    (bs : List SafetyBounds)
    (h : p.values.length = bs.length) (i : Nat) (hi : i < bs.length)
    (hv : ((SafetyLayer.clip p c bs).stats.getD i default).violation
            = ViolationType.SoftLimit ∨
          ((SafetyLayer.clip p c bs).stats.getD i default).violation
            = ViolationType.None) :
    ((SafetyLayer.clip p c bs).stats.getD i default).clipped_value
        = p.values.getD i FP.NaN ∧
    ((SafetyLayer.clip p c bs).stats.getD i default).was_modified = false := by
  rw [clip_stats_getD p c bs h i hi default] at hv ⊢
  exact clipDim_soft_none_unchanged _ _ hv

/-- C8: the result of `clip` depends only on the proposed action and the
bounds; the context state is accepted but never read, so any two context
states yield identical `ClipResult`s. -/
theorem C8_context_non_interference (p : Action) (c1 c2 : State)
    (bs : List SafetyBounds) :
    SafetyLayer.clip p c1 bs = SafetyLayer.clip p c2 bs := rfl

/-- C9 (implicit): with matching lengths, each per-dimension `ClipStats`
has `was_modified` true exactly when its violation is `HardLimit` or
`InvariantBreach`. -/
theorem C9_was_modified_iff (p : Action) (c : State) (bs : List SafetyBounds)
    (h : p.values.length = bs.length) (i : Nat) (hi : i < bs.length) :
    ((SafetyLayer.clip p c bs).stats.getD i default).was_modified = true ↔
      (((SafetyLayer.clip p c bs).stats.getD i default).violation
          = ViolationType.HardLimit ∨
       ((SafetyLayer.clip p c bs).stats.getD i default).violation
          = ViolationType.InvariantBreach) := by
  rw [clip_stats_getD p c bs h i hi default]
  exact clipDim_was_modified_iff _ _

/-- Witness for C4: one dimension proposing NaN against bounds
`[0,1]`/`[0,1]` is neutralized to `0` and flagged as a breach. -/
theorem C4_fail_safe_witness :
    ((SafetyLayer.clip ⟨[FP.NaN]⟩ ⟨[]⟩
        [⟨FP.Finite 0, FP.Finite 1, FP.Finite 0, FP.Finite 1⟩]).stats.getD 0
          default).violation = ViolationType.InvariantBreach ∧
    ((SafetyLayer.clip ⟨[FP.NaN]⟩ ⟨[]⟩
        [⟨FP.Finite 0, FP.Finite 1, FP.Finite 0, FP.Finite 1⟩]).stats.getD 0
          default).clipped_value = FP.Finite 0 ∧
    ((SafetyLayer.clip ⟨[FP.NaN]⟩ ⟨[]⟩
        [⟨FP.Finite 0, FP.Finite 1, FP.Finite 0, FP.Finite 1⟩]).stats.getD 0
          default).was_modified = true ∧
    (SafetyLayer.clip ⟨[FP.NaN]⟩ ⟨[]⟩
        [⟨FP.Finite 0, FP.Finite 1, FP.Finite 0, FP.Finite 1⟩]).is_safe = false :=
  C4_fail_safe ⟨[FP.NaN]⟩ ⟨[]⟩
    [⟨FP.Finite 0, FP.Finite 1, FP.Finite 0, FP.Finite 1⟩]
    (by decide) 0 (by decide) (by decide)

/-- Witness for C5: proposed `7` against hard bounds `[-1, 2]` and soft
bounds `[-1, 1]` (so `7` also exceeds the soft limit) is clamped to `2`
with violation `HardLimit`. -/
theorem C5_hard_limit_precedence_witness :
    ((SafetyLayer.clip ⟨[FP.Finite 7]⟩ ⟨[]⟩
        [⟨FP.Finite (-1), FP.Finite 2, FP.Finite (-1), FP.Finite 1⟩]).stats.getD 0
          default).violation = ViolationType.HardLimit ∧
    ((SafetyLayer.clip ⟨[FP.Finite 7]⟩ ⟨[]⟩
        [⟨FP.Finite (-1), FP.Finite 2, FP.Finite (-1), FP.Finite 1⟩]).stats.getD 0
          default).clipped_value
      = (([⟨FP.Finite (-1), FP.Finite 2, FP.Finite (-1), FP.Finite 1⟩] :
            List SafetyBounds).getD 0 SafetyBounds.unbounded).upper_hard ∧
    ((SafetyLayer.clip ⟨[FP.Finite 7]⟩ ⟨[]⟩
        [⟨FP.Finite (-1), FP.Finite 2, FP.Finite (-1), FP.Finite 1⟩]).stats.getD 0
          default).was_modified = true :=
  (C5_hard_limit_precedence ⟨[FP.Finite 7]⟩ ⟨[]⟩
      [⟨FP.Finite (-1), FP.Finite 2, FP.Finite (-1), FP.Finite 1⟩]
      (by decide) 0 (by decide) (by decide)).1 (by decide)

/-- Witness for C6: proposed `2` against hard bounds `[-10, 10]` and soft
bounds `[-1, 1]` is a `SoftLimit` advisory and passes through unchanged. -/
theorem C6_soft_non_interference_witness :
    ((SafetyLayer.clip ⟨[FP.Finite 2]⟩ ⟨[]⟩
        [⟨FP.Finite (-10), FP.Finite 10, FP.Finite (-1), FP.Finite 1⟩]).stats.getD 0
          default).clipped_value
      = (Action.mk [FP.Finite 2]).values.getD 0 FP.NaN ∧
    ((SafetyLayer.clip ⟨[FP.Finite 2]⟩ ⟨[]⟩
        [⟨FP.Finite (-10), FP.Finite 10, FP.Finite (-1), FP.Finite 1⟩]).stats.getD 0
          default).was_modified = false :=
  C6_soft_non_interference ⟨[FP.Finite 2]⟩ ⟨[]⟩
    [⟨FP.Finite (-10), FP.Finite 10, FP.Finite (-1), FP.Finite 1⟩]
    (by decide) 0 (by decide) (Or.inl (by decide))

/-- Witness for C9 at a concrete clamped dimension. -/
theorem C9_was_modified_iff_witness :
    ((SafetyLayer.clip ⟨[FP.Finite 7]⟩ ⟨[]⟩
        [⟨FP.Finite 0, FP.Finite 1, FP.Finite 0, FP.Finite 1⟩]).stats.getD 0
          default).was_modified = true ↔
      (((SafetyLayer.clip ⟨[FP.Finite 7]⟩ ⟨[]⟩
          [⟨FP.Finite 0, FP.Finite 1, FP.Finite 0, FP.Finite 1⟩]).stats.getD 0
            default).violation = ViolationType.HardLimit ∨
       ((SafetyLayer.clip ⟨[FP.Finite 7]⟩ ⟨[]⟩
          [⟨FP.Finite 0, FP.Finite 1, FP.Finite 0, FP.Finite 1⟩]).stats.getD 0
            default).violation = ViolationType.InvariantBreach) :=
  C9_was_modified_iff ⟨[FP.Finite 7]⟩ ⟨[]⟩
    [⟨FP.Finite 0, FP.Finite 1, FP.Finite 0, FP.Finite 1⟩]
    (by decide) 0 (by decide)

/-- C10 as frozen is refuted by inverted hard bounds: with
`lower_hard = 5 > upper_hard = 3`, the proposed value `5` equals
`lower_hard` exactly and is nevertheless clamped (to `3`, violation
`HardLimit`). -/
theorem C10_counterexample :
    (Action.mk [FP.Finite 5]).values.getD 0 FP.NaN
        = (([⟨FP.Finite 5, FP.Finite 3, FP.Finite 0, FP.Finite 0⟩] :
            List SafetyBounds).getD 0 SafetyBounds.unbounded).lower_hard ∧
    ((SafetyLayer.clip ⟨[FP.Finite 5]⟩ ⟨[]⟩
        [⟨FP.Finite 5, FP.Finite 3, FP.Finite 0, FP.Finite 0⟩]).stats.getD 0
          default).violation = ViolationType.HardLimit ∧
    ((SafetyLayer.clip ⟨[FP.Finite 5]⟩ ⟨[]⟩
        [⟨FP.Finite 5, FP.Finite 3, FP.Finite 0, FP.Finite 0⟩]).stats.getD 0
          default).clipped_value ≠ FP.Finite 5 := by
  decide

/-- C10 (amended): with matching lengths and a finite proposed value `v`,
boundary values count as inside because all four limit checks are
strict, provided the bounds are ordered: if `lower_hard ≤ upper_hard`
and `v` equals a hard bound exactly, it is not clamped; if
`lower_soft ≤ upper_soft`, `v` is within the hard bounds, and `v` equals
a soft bound exactly, the violation is `None`. -/
theorem C10_boundary_strict (p : Action) (c : State) (bs : List SafetyBounds)
    (h : p.values.length = bs.length) (i : Nat) (hi : i < bs.length)
    (hfin : FP.isFinite (p.values.getD i FP.NaN) = true) :
    (FP.le (bs.getD i SafetyBounds.unbounded).lower_hard
         (bs.getD i SafetyBounds.unbounded).upper_hard = true →
      (p.values.getD i FP.NaN = (bs.getD i SafetyBounds.unbounded).upper_hard ∨
       p.values.getD i FP.NaN = (bs.getD i SafetyBounds.unbounded).lower_hard) →
      ((SafetyLayer.clip p c bs).stats.getD i default).violation
          ≠ ViolationType.HardLimit ∧
      ((SafetyLayer.clip p c bs).stats.getD i default).clipped_value
          = p.values.getD i FP.NaN) ∧
    (FP.le (bs.getD i SafetyBounds.unbounded).lower_soft
         (bs.getD i SafetyBounds.unbounded).upper_soft = true →
      FP.gt (p.values.getD i FP.NaN)
          (bs.getD i SafetyBounds.unbounded).upper_hard = false →
      FP.lt (p.values.getD i FP.NaN)
          (bs.getD i SafetyBounds.unbounded).lower_hard = false →
      (p.values.getD i FP.NaN = (bs.getD i SafetyBounds.unbounded).upper_soft ∨
       p.values.getD i FP.NaN = (bs.getD i SafetyBounds.unbounded).lower_soft) →
      ((SafetyLayer.clip p c bs).stats.getD i default).violation
          = ViolationType.None) := by
  rw [clip_stats_getD p c bs h i hi default]
  constructor
  · intro hord heq
    have h1 : FP.gt (p.values.getD i FP.NaN)
        (bs.getD i SafetyBounds.unbounded).upper_hard = false := by
      rcases heq with he | he
      · rw [he]; exact FP.lt_irrefl _
      · rw [he]; exact FP.not_lt_of_le hord
    have h2 : FP.lt (p.values.getD i FP.NaN)
        (bs.getD i SafetyBounds.unbounded).lower_hard = false := by
      rcases heq with he | he
      · rw [he]; exact FP.not_lt_of_le hord
      · rw [he]; exact FP.lt_irrefl _
    obtain ⟨hc, -, hnh, -⟩ := clipDim_soft_or_none _ _ hfin h1 h2
    exact ⟨hnh, hc⟩
  · intro hords h1 h2 heq
    have h3 : FP.gt (p.values.getD i FP.NaN)
        (bs.getD i SafetyBounds.unbounded).upper_soft = false := by
      rcases heq with he | he
      · rw [he]; exact FP.lt_irrefl _
      · rw [he]; exact FP.not_lt_of_le hords
    have h4 : FP.lt (p.values.getD i FP.NaN)
        (bs.getD i SafetyBounds.unbounded).lower_soft = false := by
      rcases heq with he | he
      · rw [he]; exact FP.not_lt_of_le hords
      · rw [he]; exact FP.lt_irrefl _
    rw [clipDim_none _ _ hfin h1 h2 h3 h4]

/-- Witness for C10 (amended): proposed `3` equal to `upper_hard` of the
ordered bounds `[0, 3]` (soft `[0, 2]`) is not clamped. -/
theorem C10_boundary_strict_witness :
    ((SafetyLayer.clip ⟨[FP.Finite 3]⟩ ⟨[]⟩
        [⟨FP.Finite 0, FP.Finite 3, FP.Finite 0, FP.Finite 2⟩]).stats.getD 0
          default).violation ≠ ViolationType.HardLimit ∧
    ((SafetyLayer.clip ⟨[FP.Finite 3]⟩ ⟨[]⟩
        [⟨FP.Finite 0, FP.Finite 3, FP.Finite 0, FP.Finite 2⟩]).stats.getD 0
          default).clipped_value
      = (Action.mk [FP.Finite 3]).values.getD 0 FP.NaN :=
  (C10_boundary_strict ⟨[FP.Finite 3]⟩ ⟨[]⟩
      [⟨FP.Finite 0, FP.Finite 3, FP.Finite 0, FP.Finite 2⟩]
      (by decide) 0 (by decide) (by decide)).1 (by decide) (Or.inl (by decide))

/-! ### Idempotence -/

theorem clipDim_clipped_inbounds (v : FP) (b : SafetyBounds)
    (hfin : FP.isFinite v = true)
    (hord : FP.le b.lower_hard b.upper_hard = true)
    (hne : b.upper_hard ≠ FP.NegInf) (hpe : b.lower_hard ≠ FP.PosInf) :
    FP.isFinite (clipDim v b).clipped_value = true ∧
    FP.gt (clipDim v b).clipped_value b.upper_hard = false ∧
    FP.lt (clipDim v b).clipped_value b.lower_hard = false := by
  by_cases h1 : FP.gt v b.upper_hard = true
  · rw [clipDim_upper_hard v b hfin h1]
    refine ⟨?_, FP.lt_irrefl _, FP.not_lt_of_le hord⟩
    have huu := FP.le_self_right hord
    cases hu : b.upper_hard with
    | NaN => rw [hu] at huu; simp [FP.le] at huu
    | NegInf => exact absurd hu hne
    | PosInf =>
      rw [hu] at h1
      rw [show FP.gt v FP.PosInf = FP.lt FP.PosInf v from rfl,
          FP.lt_posInf_left] at h1
      exact absurd h1 (by simp)
    | Finite q => rfl
  · have h1' : FP.gt v b.upper_hard = false := by simpa using h1
    by_cases h2 : FP.lt v b.lower_hard = true
    · rw [clipDim_lower_hard v b hfin h1' h2]
      refine ⟨?_, FP.not_lt_of_le hord, FP.lt_irrefl _⟩
      have hll := FP.le_self_left hord
      cases hl : b.lower_hard with
      | NaN => rw [hl] at hll; simp [FP.le] at hll
      | PosInf => exact absurd hl hpe
      | NegInf =>
        rw [hl, FP.lt_negInf_right] at h2
        exact absurd h2 (by simp)
      | Finite q => rfl
    · have h2' : FP.lt v b.lower_hard = false := by simpa using h2
      obtain ⟨hc, -, -, -⟩ := clipDim_soft_or_none v b hfin h1' h2'
      rw [hc]
      exact ⟨hfin, h1', h2'⟩

theorem clipDim_idem (v : FP) (b : SafetyBounds)
    (hfin : FP.isFinite v = true)
    (hord : FP.le b.lower_hard b.upper_hard = true)
    (hne : b.upper_hard ≠ FP.NegInf) (hpe : b.lower_hard ≠ FP.PosInf) :
    (clipDim (clipDim v b).clipped_value b).clipped_value
        = (clipDim v b).clipped_value ∧
    (clipDim (clipDim v b).clipped_value b).was_modified = false := by
  obtain ⟨hf, h1, h2⟩ := clipDim_clipped_inbounds v b hfin hord hne hpe
  obtain ⟨hc, hm, -, -⟩ := clipDim_soft_or_none _ b hf h1 h2
  exact ⟨hc, hm⟩

theorem clip_idem_lists (vs : List FP) :
    ∀ bs : List SafetyBounds, vs.length = bs.length →
      vs.all FP.isFinite = true →
      (∀ b ∈ bs, FP.le b.lower_hard b.upper_hard = true ∧
        b.upper_hard ≠ FP.NegInf ∧ b.lower_hard ≠ FP.PosInf) →
      (List.zipWith clipDim
          ((List.zipWith clipDim vs bs).map ClipStats.clipped_value)
          bs).map ClipStats.clipped_value
        = (List.zipWith clipDim vs bs).map ClipStats.clipped_value ∧
      ∀ s ∈ List.zipWith clipDim
          ((List.zipWith clipDim vs bs).map ClipStats.clipped_value) bs,
        s.was_modified = false := by
  induction vs with
  | nil => intro bs h _ _; simp
  | cons v vs ih =>
    intro bs h hall hb
    cases bs with
    | nil => simp at h
    | cons b bs =>
      have hparts : FP.isFinite v = true ∧ vs.all FP.isFinite = true := by
        simpa using hall
      obtain ⟨hbo, hbn, hbp⟩ := hb b (by simp)
      have ihh := ih bs (by simpa using h) hparts.2
        (fun b' hb' => hb b' (by simp [hb']))
      obtain ⟨hidc, hidm⟩ := clipDim_idem v b hparts.1 hbo hbn hbp
      simp only [List.zipWith_cons_cons, List.map_cons, List.mem_cons]
      constructor
      · rw [hidc, ihh.1]
      · intro s hs
        rcases hs with rfl | hs
        · exact hidm
        · exact ihh.2 s hs

/-- C7 as frozen is refuted by a dimension mismatch: three proposed
values against two bounds whose `upper_hard` is `-1` yield the clamped
action `[0, 0]`, and re-clipping that clamped action with the same
bounds clamps it again to `[-1, -1]`. -/
theorem C7_counterexample :
    (SafetyLayer.clip
        (SafetyLayer.clip ⟨[FP.Finite 1, FP.Finite 1, FP.Finite 1]⟩ ⟨[]⟩
          [⟨FP.Finite (-2), FP.Finite (-1), FP.Finite (-2), FP.Finite (-1)⟩,
           ⟨FP.Finite (-2), FP.Finite (-1), FP.Finite (-2), FP.Finite (-1)⟩]
          ).clamped_action ⟨[]⟩
        [⟨FP.Finite (-2), FP.Finite (-1), FP.Finite (-2), FP.Finite (-1)⟩,
         ⟨FP.Finite (-2), FP.Finite (-1), FP.Finite (-2), FP.Finite (-1)⟩]
      ).clamped_action
    ≠ (SafetyLayer.clip ⟨[FP.Finite 1, FP.Finite 1, FP.Finite 1]⟩ ⟨[]⟩
        [⟨FP.Finite (-2), FP.Finite (-1), FP.Finite (-2), FP.Finite (-1)⟩,
         ⟨FP.Finite (-2), FP.Finite (-1), FP.Finite (-2), FP.Finite (-1)⟩]
      ).clamped_action := by
  decide

/-- C7 (amended): idempotence holds for proper calls — matching lengths,
every proposed value finite, and every dimension's hard bounds ordered
(`lower_hard ≤ upper_hard`) with `upper_hard ≠ -∞` and
`lower_hard ≠ +∞`.  Re-clipping the clamped action with the same context
and bounds reproduces the clamped action exactly, with `was_modified`
false in every per-dimension record (soft advisories may persist). -/
theorem C7_idempotent (p : Action) (c : State) (bs : List SafetyBounds)
    (h : p.values.length = bs.length)
    (hfin : p.values.all FP.isFinite = true)
    (hb : ∀ b ∈ bs, FP.le b.lower_hard b.upper_hard = true ∧
          b.upper_hard ≠ FP.NegInf ∧ b.lower_hard ≠ FP.PosInf) :
    (SafetyLayer.clip (SafetyLayer.clip p c bs).clamped_action c bs).clamped_action
        = (SafetyLayer.clip p c bs).clamped_action ∧
    ∀ s ∈ (SafetyLayer.clip (SafetyLayer.clip p c bs).clamped_action c bs).stats,
        s.was_modified = false := by
  obtain ⟨h1, h2⟩ := clip_idem_lists p.values bs h hfin hb
  have harg : (SafetyLayer.clip p c bs).clamped_action
      = Action.mk ((List.zipWith clipDim p.values bs).map ClipStats.clipped_value) := by
    rw [clip_of_length_eq p c bs h]
  have hlen2 : (Action.mk ((List.zipWith clipDim p.values bs).map
      ClipStats.clipped_value)).values.length = bs.length := by
    simp only [List.length_map, List.length_zipWith]
    omega
  rw [harg, clip_of_length_eq _ c bs hlen2]
  exact ⟨congrArg Action.mk h1, h2⟩

/-- Witness for C7 (amended): the clamped action of `clip [5]` with hard
bounds `[0, 2]` (soft `[0, 1]`) is unchanged by a second clip. -/
theorem C7_idempotent_witness :
    (SafetyLayer.clip
        (SafetyLayer.clip ⟨[FP.Finite 5]⟩ ⟨[]⟩
          [⟨FP.Finite 0, FP.Finite 2, FP.Finite 0, FP.Finite 1⟩]).clamped_action
        ⟨[]⟩ [⟨FP.Finite 0, FP.Finite 2, FP.Finite 0, FP.Finite 1⟩]).clamped_action
      = (SafetyLayer.clip ⟨[FP.Finite 5]⟩ ⟨[]⟩
          [⟨FP.Finite 0, FP.Finite 2, FP.Finite 0, FP.Finite 1⟩]).clamped_action :=
  (C7_idempotent ⟨[FP.Finite 5]⟩ ⟨[]⟩
      [⟨FP.Finite 0, FP.Finite 2, FP.Finite 0, FP.Finite 1⟩]
      (by decide) (by decide) (by decide)).1

end Safety
